import Mathlib

/-!
Verification of the `journey` trip-planning HTTP backend.

The Go source (package `api`, `internal/api/api.go`, plus the `mailpit` mailer
and the thin `cmd/journey` entry point) is shallowly embedded below.

Modelling conventions:
* `time.Time` values (as produced by `pgtype.Timestamp.Time` and used as the
  grouping key of `mapActivities`) are modelled by `GoTime`: Go `==` on
  `time.Time` compares the whole stored representation (wall-clock seconds,
  nanoseconds, and the location), so `GoTime` carries all three components and
  equality is structural.
* `uuid.Parse` is third-party library code; a handler only branches on whether
  it succeeded, so handlers receive its outcome as an `Option String`
  (`none` = parse error, `some id` = the parsed identifier).
* The store and the mailer are external collaborators reached through
  interfaces; they are passed to each handler as functions returning
  `Except StoreErr _` (`StoreErr.noRows` models `pgx.ErrNoRows`).  Each
  handler records the store operations it performs, in order, in
  `HandlerOutput.storeOps`, and the messages it logs in `HandlerOutput.logs`.
* Go `for range` over a map visits each key exactly once in an unspecified
  (runtime-randomised) order.  `mapActivities` is therefore embedded twice:
  `activityMap`/`mapActivities` build the map content deterministically
  (association list in key-insertion order), and `mapActivitiesIter` takes the
  key order actually visited as an explicit parameter; an execution of the Go
  function corresponds to `mapActivitiesIter` at some permutation of the keys.
-/

set_option maxHeartbeats 1000000

namespace Journey

/-- Model of a Go `time.Time` as stored in an activity's `OccursAt` field:
wall-clock seconds since the epoch, the sub-second nanosecond component, and
the location (modelled by its offset in minutes).  Go map-key equality on
`time.Time` compares all of these, which structural equality reproduces. -/
structure GoTime where
  sec : Int
  nsec : Nat
  offsetMin : Int
  deriving DecidableEq, Repr

/-- The calendar date a `GoTime` displays as (day number in its own location),
used only to state claims about "same displayed date, different stored instant". -/
def displayedDate (t : GoTime) : Int :=
  (t.sec + t.offsetMin * 60) / 86400

/-- `pgstore.Activity` (generated query row), restricted to the fields the
handlers read: `ID` (rendered via `uuid.UUID.String()`), `Title`, `OccursAt`. -/
structure Activity where
  ID : String
  Title : String
  OccursAt : GoTime
  deriving DecidableEq, Repr

/-- `spec.GetTripActivitiesResponseInnerArray`. -/
structure GetTripActivitiesResponseInnerArray where
  ID : String
  OccursAt : GoTime
  Title : String
  deriving DecidableEq, Repr

/-- `spec.GetTripActivitiesResponseOuterArray`. -/
structure GetTripActivitiesResponseOuterArray where
  Activities : List GetTripActivitiesResponseInnerArray
  Date : GoTime
  deriving DecidableEq, Repr

/-- The struct literal built inside the loop of `mapActivities`. -/
def toInner (a : Activity) : GetTripActivitiesResponseInnerArray :=
  { ID := a.ID, OccursAt := a.OccursAt, Title := a.Title }

/-- Content of the Go `map[time.Time][]spec.GetTripActivitiesResponseInnerArray`,
as an association list whose keys appear in first-insertion order. -/
abbrev ActivityMap := List (GoTime × List GetTripActivitiesResponseInnerArray)

/-- `activityMap[key] = append(activityMap[key], v)`: append `v` to the entry at
`key`, creating the entry at the end if absent. -/
def insertActivity : ActivityMap → GoTime → GetTripActivitiesResponseInnerArray → ActivityMap
  | [], k, v => [(k, [v])]
  | (k', vs) :: rest, k, v =>
      if k' = k then (k', vs ++ [v]) :: rest
      else (k', vs) :: insertActivity rest k v

/-- The map built by the first loop of `mapActivities`. -/
def activityMap (activities : List Activity) : ActivityMap :=
  activities.foldl (fun m a => insertActivity m a.OccursAt (toInner a)) []

/-- Lookup in the modelled map. -/
def lookupGroup : ActivityMap → GoTime → Option (List GetTripActivitiesResponseInnerArray)
  | [], _ => none
  | (k, vs) :: rest, t => if k = t then some vs else lookupGroup rest t

/-- The value list at a key, `[]` when the key is absent. -/
def groupOf (m : ActivityMap) (t : GoTime) : List GetTripActivitiesResponseInnerArray :=
  (lookupGroup m t).getD []

/-- The keys of the modelled map, in first-insertion order. -/
def mapKeys (m : ActivityMap) : List GoTime := m.map Prod.fst

/-- `mapActivities` with the second loop visiting keys in insertion order
(one valid execution of the Go function). -/
def mapActivities (activities : List Activity) : List GetTripActivitiesResponseOuterArray :=
  (activityMap activities).map fun p => { Activities := p.2, Date := p.1 }

/-- `mapActivities` with the order in which `for date, innerActivities := range
activityMap` visits the keys made explicit: an execution of the Go function is
`mapActivitiesIter activities order` for some permutation `order` of the map's
keys. -/
def mapActivitiesIter (activities : List Activity) (order : List GoTime) :
    List GetTripActivitiesResponseOuterArray :=
  order.filterMap fun t =>
    (lookupGroup (activityMap activities) t).map fun vs => { Activities := vs, Date := t }

/-- Concatenation of the `Activities` fields of all output groups. -/
def joinActivities : List GetTripActivitiesResponseOuterArray →
    List GetTripActivitiesResponseInnerArray
  | [] => []
  | g :: rest => g.Activities ++ joinActivities rest

/-- Concatenation of all value lists of the modelled map. -/
def valsJoin : ActivityMap → List GetTripActivitiesResponseInnerArray
  | [] => []
  | (_, vs) :: rest => vs ++ valsJoin rest

/-! ## Handler layer -/

/-- Store-call failures: `pgx.ErrNoRows` versus any other error. -/
inductive StoreErr where
  | noRows
  | other (msg : String)
  deriving DecidableEq, Repr

/-- `pgstore.Participant`, restricted to the fields the handler reads. -/
structure Participant where
  ID : String
  IsConfirmed : Bool
  deriving DecidableEq, Repr

/-- `pgstore.Trip`, restricted to the fields read by `GetTripsTripID` and the
mailer. -/
structure Trip where
  ID : String
  Destination : String
  StartsAt : GoTime
  EndsAt : GoTime
  IsConfirmed : Bool
  OwnerName : String
  OwnerEmail : String
  deriving DecidableEq, Repr

/-- `spec.GetTripDetailsResponseTripObj`. -/
structure GetTripDetailsResponseTripObj where
  ID : String
  Destination : String
  EndsAt : GoTime
  IsConfirmed : Bool
  StartsAt : GoTime
  deriving DecidableEq, Repr

/-- A store-interface operation, tagged with its argument. -/
inductive StoreOp where
  | createTrip
  | getParticipant (id : String)
  | confirmParticipant (id : String)
  | getTrip (id : String)
  | getTripActivities (id : String)
  deriving DecidableEq, Repr

/-- The `*spec.Response` values an implemented handler can return. -/
inductive SpecResponse where
  | json400 (message : String)
  | json204
  | json201 (tripID : String)
  | json200Trip (trip : GetTripDetailsResponseTripObj)
  | json200Activities (activities : List GetTripActivitiesResponseOuterArray)
  deriving DecidableEq, Repr

/-- What a handler call produced: the response, the store operations performed
(in order), and the messages logged. -/
structure HandlerOutput where
  response : SpecResponse
  storeOps : List StoreOp
  logs : List String
  deriving DecidableEq, Repr

/-- A request either returns a structured response or panics. -/
inductive HandlerOutcome where
  | returns (out : HandlerOutput)
  | panics (msg : String)
  deriving DecidableEq, Repr

/-- `PATCH /participants/{participantId}/confirm`.  `parsedID` is the outcome of
`uuid.Parse(participantID)`; `GetParticipant` and `ConfirmParticipant` are the
store operations (`ConfirmParticipant` returns `none` on success). -/
def PatchParticipantsParticipantIDConfirm
    (parsedID : Option String)
    (GetParticipant : String → Except StoreErr Participant)
    (ConfirmParticipant : String → Option StoreErr) : HandlerOutput :=
  match parsedID with
  | none => ⟨.json400 "uuid invalid", [], []⟩
  | some id =>
    match GetParticipant id with
    | .error .noRows =>
        ⟨.json400 "participant not found", [.getParticipant id], []⟩
    | .error (.other _) =>
        ⟨.json400 "something went wrong, try again", [.getParticipant id],
          ["failed to get participant"]⟩
    | .ok participant =>
      if participant.IsConfirmed then
        ⟨.json400 "participant already confirmed", [.getParticipant id], []⟩
      else
        match ConfirmParticipant id with
        | some _ =>
            ⟨.json400 "something went wrong, try again",
              [.getParticipant id, .confirmParticipant id],
              ["failed to confim participant"]⟩
        | none => ⟨.json204, [.getParticipant id, .confirmParticipant id], []⟩

/-- `POST /trips`.  `body` is the outcome of the JSON decode (`none` = decode
error); `validateStruct` is `api.validator.Struct` (`none` = valid);
`CreateTrip` is the store write returning the new trip id;
`SendConfirmTripEmailToTripOwner` is the mailer, whose result is only ever
logged (it runs in a detached goroutine after the response is decided). -/
def PostTrips {β : Type} (body : Option β)
    (validateStruct : β → Option String)
    (CreateTrip : β → Except StoreErr String)
    (SendConfirmTripEmailToTripOwner : String → Option String) : HandlerOutput :=
  match body with
  | none => ⟨.json400 "invalid JSON", [], []⟩
  | some b =>
    match validateStruct b with
    | some e => ⟨.json400 ("invalid input: " ++ e), [], []⟩
    | none =>
      match CreateTrip b with
      | .error _ => ⟨.json400 "failed to create trip, try again", [.createTrip], []⟩
      | .ok tripID =>
          ⟨.json201 tripID, [.createTrip],
            match SendConfirmTripEmailToTripOwner tripID with
            | some _ => ["failed to send email on PostTrips"]
            | none => []⟩

/-- `GET /trips/{tripId}`. -/
def GetTripsTripID (parsedID : Option String)
    (GetTrip : String → Except StoreErr Trip) : HandlerOutput :=
  match parsedID with
  | none => ⟨.json400 "uuid invalid", [], []⟩
  | some id =>
    match GetTrip id with
    | .error .noRows => ⟨.json400 "Trip not found", [.getTrip id], []⟩
    | .error (.other _) =>
        ⟨.json400 "something went wrong, try again", [.getTrip id], ["failed to get trip"]⟩
    | .ok trip =>
        ⟨.json200Trip
            { ID := trip.ID, Destination := trip.Destination, EndsAt := trip.EndsAt,
              IsConfirmed := trip.IsConfirmed, StartsAt := trip.StartsAt },
          [.getTrip id], []⟩

/-- `GET /trips/{tripId}/activities`.  The response is built by `mapActivities`
(here in its insertion-order execution; group order does not matter to any
claim about this handler). -/
def GetTripsTripIDActivities (parsedID : Option String)
    (GetTripActivities : String → Except StoreErr (List Activity)) : HandlerOutput :=
  match parsedID with
  | none => ⟨.json400 "uuid invalid", [], []⟩
  | some id =>
    match GetTripActivities id with
    | .error .noRows => ⟨.json400 "no trips found", [.getTripActivities id], []⟩
    | .error (.other _) =>
        ⟨.json400 "something went wrong, try again", [.getTripActivities id],
          ["failed to get trips"]⟩
    | .ok tripActivities =>
        ⟨.json200Activities (mapActivities tripActivities), [.getTripActivities id], []⟩

/-- `PUT /trips/{tripId}`: `panic("not implemented")`. -/
def PutTripsTripID (_tripID : String) : HandlerOutcome := .panics "not implemented"

/-- `POST /trips/{tripId}/activities`: `panic("not implemented")`. -/
def PostTripsTripIDActivities (_tripID : String) : HandlerOutcome := .panics "not implemented"

/-- `GET /trips/{tripId}/confirm`: `panic("not implemented")`. -/
def GetTripsTripIDConfirm (_tripID : String) : HandlerOutcome := .panics "not implemented"

/-- `POST /trips/{tripId}/invites`: `panic("not implemented")`. -/
def PostTripsTripIDInvites (_tripID : String) : HandlerOutcome := .panics "not implemented"

/-- `GET /trips/{tripId}/links`: `panic("not implemented")`. -/
def GetTripsTripIDLinks (_tripID : String) : HandlerOutcome := .panics "not implemented"

/-- `POST /trips/{tripId}/links`: `panic("not implemented")`. -/
def PostTripsTripIDLinks (_tripID : String) : HandlerOutcome := .panics "not implemented"

/-- `GET /trips/{tripId}/participants`: `panic("not implemented")`. -/
def GetTripsTripIDParticipants (_tripID : String) : HandlerOutcome := .panics "not implemented"

/-! ## Properties of the grouping map -/

theorem mapKeys_nil : mapKeys ([] : ActivityMap) = [] := rfl

theorem mapKeys_cons (k : GoTime) (vs : List GetTripActivitiesResponseInnerArray)
    (rest : ActivityMap) : mapKeys ((k, vs) :: rest) = k :: mapKeys rest := rfl

theorem lookupGroup_insertActivity (m : ActivityMap) (k t : GoTime)
    (v : GetTripActivitiesResponseInnerArray) :
    lookupGroup (insertActivity m k v) t =
      if k = t then some (groupOf m t ++ [v]) else lookupGroup m t := by
  induction m with
  | nil =>
    by_cases h : k = t <;> simp [insertActivity, lookupGroup, groupOf, h]
  | cons p rest ih =>
    obtain ⟨k', vs⟩ := p
    by_cases hk : k' = k
    · subst hk
      by_cases ht : k' = t
      · subst ht
        simp [insertActivity, lookupGroup, groupOf]
      · simp [insertActivity, lookupGroup, groupOf, ht]
    · by_cases ht : k' = t
      · subst ht
        have hkt : ¬ k = k' := fun h => hk h.symm
        simp [insertActivity, lookupGroup, groupOf, hk, hkt]
      · simp [insertActivity, lookupGroup, groupOf, hk, ht, ih]

theorem groupOf_insertActivity (m : ActivityMap) (k t : GoTime)
    (v : GetTripActivitiesResponseInnerArray) :
    groupOf (insertActivity m k v) t =
      if k = t then groupOf m t ++ [v] else groupOf m t := by
  rw [groupOf, lookupGroup_insertActivity]
  by_cases h : k = t <;> simp [h, groupOf]

theorem groupOf_foldl (activities : List Activity) (m : ActivityMap) (t : GoTime) :
    groupOf (activities.foldl (fun m a => insertActivity m a.OccursAt (toInner a)) m) t =
      groupOf m t ++ (activities.filter fun a => decide (a.OccursAt = t)).map toInner := by
  induction activities generalizing m with
  | nil => simp
  | cons a rest ih =>
    rw [List.foldl_cons, ih, groupOf_insertActivity]
    by_cases h : a.OccursAt = t
    · simp [h, List.filter_cons]
    · simp [h, List.filter_cons]

theorem groupOf_activityMap (activities : List Activity) (t : GoTime) :
    groupOf (activityMap activities) t =
      (activities.filter fun a => decide (a.OccursAt = t)).map toInner := by
  have h := groupOf_foldl activities [] t
  simp only [show groupOf ([] : ActivityMap) t = [] from rfl, List.nil_append] at h
  exact h

theorem mapKeys_insertActivity (m : ActivityMap) (k : GoTime)
    (v : GetTripActivitiesResponseInnerArray) :
    mapKeys (insertActivity m k v) =
      if k ∈ mapKeys m then mapKeys m else mapKeys m ++ [k] := by
  induction m with
  | nil => simp [insertActivity, mapKeys]
  | cons p rest ih =>
    obtain ⟨k', vs⟩ := p
    by_cases hk : k' = k
    · subst hk
      simp [insertActivity, mapKeys_cons]
    · have hne : ¬ k = k' := fun h => hk h.symm
      by_cases hm : k ∈ mapKeys rest
      · simp [insertActivity, hk, mapKeys_cons, ih, hm, hne, List.mem_cons]
      · simp [insertActivity, hk, mapKeys_cons, ih, hm, hne, List.mem_cons]

theorem mem_mapKeys_insertActivity (m : ActivityMap) (k t : GoTime)
    (v : GetTripActivitiesResponseInnerArray) :
    t ∈ mapKeys (insertActivity m k v) ↔ t ∈ mapKeys m ∨ t = k := by
  rw [mapKeys_insertActivity]
  by_cases hm : k ∈ mapKeys m
  · simp only [if_pos hm]
    constructor
    · exact Or.inl
    · rintro (h | rfl)
      · exact h
      · exact hm
  · simp [hm, List.mem_append]

theorem nodup_mapKeys_insertActivity (m : ActivityMap) (k : GoTime)
    (v : GetTripActivitiesResponseInnerArray) (h : (mapKeys m).Nodup) :
    (mapKeys (insertActivity m k v)).Nodup := by
  rw [mapKeys_insertActivity]
  by_cases hm : k ∈ mapKeys m
  · simpa [hm] using h
  · simp [hm, List.nodup_append, h]

theorem nodup_mapKeys_foldl (activities : List Activity) (m : ActivityMap)
    (h : (mapKeys m).Nodup) :
    (mapKeys (activities.foldl (fun m a => insertActivity m a.OccursAt (toInner a)) m)).Nodup := by
  induction activities generalizing m with
  | nil => simpa using h
  | cons a rest ih => exact ih _ (nodup_mapKeys_insertActivity _ _ _ h)

theorem nodup_mapKeys_activityMap (activities : List Activity) :
    (mapKeys (activityMap activities)).Nodup :=
  nodup_mapKeys_foldl activities [] (by simp [mapKeys])

theorem mem_mapKeys_foldl (activities : List Activity) (m : ActivityMap) (t : GoTime) :
    t ∈ mapKeys (activities.foldl (fun m a => insertActivity m a.OccursAt (toInner a)) m) ↔
      t ∈ mapKeys m ∨ ∃ a ∈ activities, a.OccursAt = t := by
  induction activities generalizing m with
  | nil => simp
  | cons a rest ih =>
    rw [List.foldl_cons, ih, mem_mapKeys_insertActivity]
    constructor
    · rintro ((h | h) | h)
      · exact Or.inl h
      · exact Or.inr ⟨a, by simp, h.symm⟩
      · obtain ⟨b, hb, hbt⟩ := h
        exact Or.inr ⟨b, by simp [hb], hbt⟩
    · rintro (h | ⟨b, hb, hbt⟩)
      · exact Or.inl (Or.inl h)
      · rcases List.mem_cons.mp hb with rfl | hbmem
        · exact Or.inl (Or.inr hbt.symm)
        · exact Or.inr ⟨b, hbmem, hbt⟩

theorem mem_mapKeys_activityMap (activities : List Activity) (t : GoTime) :
    t ∈ mapKeys (activityMap activities) ↔ ∃ a ∈ activities, a.OccursAt = t := by
  have h := mem_mapKeys_foldl activities [] t
  simp only [mapKeys_nil, List.not_mem_nil, false_or] at h
  exact h

theorem lookupGroup_eq_some_groupOf (m : ActivityMap) (t : GoTime)
    (h : t ∈ mapKeys m) : lookupGroup m t = some (groupOf m t) := by
  induction m with
  | nil => simp [mapKeys] at h
  | cons p rest ih =>
    obtain ⟨k, vs⟩ := p
    rw [mapKeys_cons] at h
    by_cases hk : k = t
    · simp [lookupGroup, groupOf, hk]
    · have ht : t ∈ mapKeys rest := by
        rcases List.mem_cons.mp h with h1 | h1
        · exact absurd h1.symm hk
        · exact h1
      have e1 : lookupGroup ((k, vs) :: rest) t = lookupGroup rest t := by
        simp [lookupGroup, hk]
      have e2 : groupOf ((k, vs) :: rest) t = groupOf rest t := by
        simp [groupOf, e1]
      rw [e1, e2]
      exact ih ht

theorem lookupGroup_of_mem_of_nodup (m : ActivityMap) (k : GoTime)
    (vs : List GetTripActivitiesResponseInnerArray)
    (hnd : (mapKeys m).Nodup) (hm : (k, vs) ∈ m) :
    lookupGroup m k = some vs := by
  induction m with
  | nil => simp at hm
  | cons p rest ih =>
    obtain ⟨k', vs'⟩ := p
    rw [mapKeys_cons] at hnd
    rcases List.mem_cons.mp hm with heq | hmem
    · injection heq with h1 h2
      subst h1
      subst h2
      simp [lookupGroup]
    · have hkm : k ∈ mapKeys rest := List.mem_map_of_mem Prod.fst hmem
      have hk : ¬ k' = k := by
        rintro rfl
        exact (List.nodup_cons.mp hnd).1 hkm
      simp [lookupGroup, hk, ih (List.nodup_cons.mp hnd).2 hmem]

theorem mem_mapActivities (activities : List Activity)
    (g : GetTripActivitiesResponseOuterArray) (hg : g ∈ mapActivities activities) :
    (g.Date, g.Activities) ∈ activityMap activities := by
  rcases List.mem_map.mp hg with ⟨⟨k, vs⟩, hp, hpe⟩
  obtain ⟨gA, gD⟩ := g
  injection hpe with h1 h2
  subst h1
  subst h2
  exact hp

theorem activities_of_mem_mapActivities (activities : List Activity)
    (g : GetTripActivitiesResponseOuterArray) (hg : g ∈ mapActivities activities) :
    g.Activities = (activities.filter fun a => decide (a.OccursAt = g.Date)).map toInner := by
  have hmem := mem_mapActivities activities g hg
  have hl := lookupGroup_of_mem_of_nodup _ _ _ (nodup_mapKeys_activityMap activities) hmem
  have hgrp : groupOf (activityMap activities) g.Date = g.Activities := by
    simp [groupOf, hl]
  rw [← hgrp, groupOf_activityMap]

theorem occursAt_of_mem_group (activities : List Activity)
    (g : GetTripActivitiesResponseOuterArray) (hg : g ∈ mapActivities activities)
    (x : GetTripActivitiesResponseInnerArray) (hx : x ∈ g.Activities) :
    x.OccursAt = g.Date := by
  rw [activities_of_mem_mapActivities activities g hg] at hx
  rcases List.mem_map.mp hx with ⟨a, ha, rfl⟩
  have h2 := List.of_mem_filter ha
  simp only [decide_eq_true_eq] at h2
  simpa [toInner] using h2

theorem filterMap_keys_eq (m : ActivityMap) (hnd : (mapKeys m).Nodup) :
    ((mapKeys m).filterMap fun t =>
        (lookupGroup m t).map fun vs =>
          ({ Activities := vs, Date := t } : GetTripActivitiesResponseOuterArray)) =
      m.map fun p => { Activities := p.2, Date := p.1 } := by
  induction m with
  | nil => simp [mapKeys]
  | cons p rest ih =>
    obtain ⟨k, vs⟩ := p
    rw [mapKeys_cons] at hnd
    have hk : k ∉ mapKeys rest := (List.nodup_cons.mp hnd).1
    have hnd2 := (List.nodup_cons.mp hnd).2
    have hlk : lookupGroup ((k, vs) :: rest) k = some vs := by simp [lookupGroup]
    rw [mapKeys_cons, List.filterMap_cons]
    have htail : ∀ t ∈ mapKeys rest,
        ((lookupGroup ((k, vs) :: rest) t).map fun vs =>
          ({ Activities := vs, Date := t } : GetTripActivitiesResponseOuterArray)) =
        ((lookupGroup rest t).map fun vs =>
          ({ Activities := vs, Date := t } : GetTripActivitiesResponseOuterArray)) := by
      intro t ht
      have hne : ¬ k = t := fun h => hk (h ▸ ht)
      simp [lookupGroup, hne]
    rw [List.filterMap_congr htail, ih hnd2, List.map_cons]
    simp [hlk]

theorem mapActivitiesIter_keys (activities : List Activity) :
    mapActivitiesIter activities (mapKeys (activityMap activities)) =
      mapActivities activities :=
  filterMap_keys_eq (activityMap activities) (nodup_mapKeys_activityMap activities)

theorem mapActivitiesIter_perm (activities : List Activity) (order : List GoTime)
    (h : order.Perm (mapKeys (activityMap activities))) :
    (mapActivitiesIter activities order).Perm (mapActivities activities) := by
  have h2 : (mapActivitiesIter activities order).Perm
      (mapActivitiesIter activities (mapKeys (activityMap activities))) :=
    h.filterMap fun t =>
      (lookupGroup (activityMap activities) t).map fun vs =>
        ({ Activities := vs, Date := t } : GetTripActivitiesResponseOuterArray)
  rw [mapActivitiesIter_keys] at h2
  exact h2

theorem valsJoin_insertActivity (m : ActivityMap) (k : GoTime)
    (v : GetTripActivitiesResponseInnerArray) :
    (valsJoin (insertActivity m k v)).Perm (valsJoin m ++ [v]) := by
  induction m with
  | nil => simp [insertActivity, valsJoin]
  | cons p rest ih =>
    obtain ⟨k', vs⟩ := p
    by_cases hk : k' = k
    · subst hk
      simp only [insertActivity, if_pos rfl, valsJoin]
      rw [List.append_assoc, List.append_assoc]
      exact List.Perm.append_left vs List.perm_append_comm
    · simp only [insertActivity, if_neg hk, valsJoin]
      rw [List.append_assoc]
      exact List.Perm.append_left vs ih

theorem valsJoin_foldl (activities : List Activity) (m : ActivityMap) :
    (valsJoin (activities.foldl (fun m a => insertActivity m a.OccursAt (toInner a)) m)).Perm
      (valsJoin m ++ activities.map toInner) := by
  induction activities generalizing m with
  | nil => simp
  | cons a rest ih =>
    rw [List.foldl_cons]
    have h1 := ih (insertActivity m a.OccursAt (toInner a))
    have h2 := List.Perm.append_right (rest.map toInner)
      (valsJoin_insertActivity m a.OccursAt (toInner a))
    have h3 := h1.trans h2
    have h4 : (valsJoin m ++ [toInner a]) ++ rest.map toInner =
        valsJoin m ++ (a :: rest).map toInner := by
      simp
    rw [← h4]
    exact h3

theorem valsJoin_activityMap (activities : List Activity) :
    (valsJoin (activityMap activities)).Perm (activities.map toInner) := by
  have h := valsJoin_foldl activities []
  simp only [show valsJoin ([] : ActivityMap) = [] from rfl, List.nil_append] at h
  exact h

theorem joinActivities_map (m : ActivityMap) :
    joinActivities (m.map fun p => { Activities := p.2, Date := p.1 }) = valsJoin m := by
  induction m with
  | nil => rfl
  | cons p rest ih =>
    obtain ⟨k, vs⟩ := p
    simp [joinActivities, valsJoin, ih]

theorem joinActivities_perm {l₁ l₂ : List GetTripActivitiesResponseOuterArray}
    (h : l₁.Perm l₂) : (joinActivities l₁).Perm (joinActivities l₂) := by
  induction h with
  | nil => exact List.Perm.refl _
  | cons x h ih =>
    simp only [joinActivities]
    exact List.Perm.append_left _ ih
  | swap x y l =>
    simp only [joinActivities]
    rw [← List.append_assoc, ← List.append_assoc]
    exact List.Perm.append_right _ List.perm_append_comm
  | trans h1 h2 ih1 ih2 => exact ih1.trans ih2

theorem exists_group_of_mem (activities : List Activity) (order : List GoTime)
    (h : order.Perm (mapKeys (activityMap activities)))
    (a : Activity) (ha : a ∈ activities) :
    ∃ g ∈ mapActivitiesIter activities order,
      g.Date = a.OccursAt ∧ toInner a ∈ g.Activities := by
  have hkey : a.OccursAt ∈ mapKeys (activityMap activities) :=
    (mem_mapKeys_activityMap activities a.OccursAt).mpr ⟨a, ha, rfl⟩
  have horder : a.OccursAt ∈ order := h.mem_iff.mpr hkey
  have hlook := lookupGroup_eq_some_groupOf _ _ hkey
  refine ⟨{ Activities := groupOf (activityMap activities) a.OccursAt,
            Date := a.OccursAt }, ?_, rfl, ?_⟩
  · apply List.mem_filterMap.mpr
    exact ⟨a.OccursAt, horder, by rw [hlook]; rfl⟩
  · show toInner a ∈ groupOf (activityMap activities) a.OccursAt
    rw [groupOf_activityMap]
    exact List.mem_map_of_mem toInner (List.mem_filter.mpr ⟨ha, by simp⟩)

/-! ## Grouping claims -/

/-- C1: for every finite activity list (the empty list included) and every
execution of `mapActivities` (any key-visit order that is a permutation of the
map's keys), the output groups together contain every input activity exactly
once — the concatenation of all groups is a permutation of the input's image
under `toInner` — and each group holds exactly the input activities with its
timestamp, in input encounter order. -/
theorem claim_C1_grouping_partition (activities : List Activity) (order : List GoTime)
    (h : order.Perm (mapKeys (activityMap activities))) :
    (joinActivities (mapActivitiesIter activities order)).Perm (activities.map toInner) ∧
    ∀ g ∈ mapActivitiesIter activities order,
      g.Activities = (activities.filter fun a => decide (a.OccursAt = g.Date)).map toInner := by
  have hperm := mapActivitiesIter_perm activities order h
  constructor
  · have h1 := joinActivities_perm hperm
    have h2 : joinActivities (mapActivities activities) = valsJoin (activityMap activities) :=
      joinActivities_map (activityMap activities)
    exact h1.trans (by rw [h2]; exact valsJoin_activityMap activities)
  · intro g hg
    exact activities_of_mem_mapActivities activities g (hperm.mem_iff.mp hg)

/-- Witness for C1: three activities, two sharing a timestamp, iterated in
reversed key order. -/
theorem claim_C1_witness :
    (([⟨1, 0, 0⟩, ⟨0, 0, 0⟩] : List GoTime).Perm
      (mapKeys (activityMap
        [⟨"a1", "T1", ⟨0, 0, 0⟩⟩, ⟨"a2", "T2", ⟨1, 0, 0⟩⟩, ⟨"a3", "T3", ⟨0, 0, 0⟩⟩]))) ∧
    ((joinActivities (mapActivitiesIter
        [⟨"a1", "T1", ⟨0, 0, 0⟩⟩, ⟨"a2", "T2", ⟨1, 0, 0⟩⟩, ⟨"a3", "T3", ⟨0, 0, 0⟩⟩]
        [⟨1, 0, 0⟩, ⟨0, 0, 0⟩])).Perm
      (([⟨"a1", "T1", ⟨0, 0, 0⟩⟩, ⟨"a2", "T2", ⟨1, 0, 0⟩⟩,
          ⟨"a3", "T3", ⟨0, 0, 0⟩⟩] : List Activity).map toInner) ∧
    ∀ g ∈ mapActivitiesIter
        [⟨"a1", "T1", ⟨0, 0, 0⟩⟩, ⟨"a2", "T2", ⟨1, 0, 0⟩⟩, ⟨"a3", "T3", ⟨0, 0, 0⟩⟩]
        [⟨1, 0, 0⟩, ⟨0, 0, 0⟩],
      g.Activities =
        (([⟨"a1", "T1", ⟨0, 0, 0⟩⟩, ⟨"a2", "T2", ⟨1, 0, 0⟩⟩,
            ⟨"a3", "T3", ⟨0, 0, 0⟩⟩] : List Activity).filter
          fun a => decide (a.OccursAt = g.Date)).map toInner) :=
  ⟨by decide, claim_C1_grouping_partition _ _ (by decide)⟩

/-- C2: within any execution of `mapActivities`, activities land in the same
group exactly when their stored `OccursAt` values are equal: members of one
group all share a timestamp, two input activities with equal timestamps share
a group, and two input activities whose displayed dates coincide but whose
stored `GoTime` values differ never share a group. -/
theorem claim_C2_exact_timestamp_grouping (activities : List Activity) (order : List GoTime)
    (h : order.Perm (mapKeys (activityMap activities))) :
    (∀ g ∈ mapActivitiesIter activities order, ∀ x ∈ g.Activities, ∀ y ∈ g.Activities,
      x.OccursAt = y.OccursAt) ∧
    (∀ a ∈ activities, ∀ b ∈ activities, a.OccursAt = b.OccursAt →
      ∃ g ∈ mapActivitiesIter activities order,
        toInner a ∈ g.Activities ∧ toInner b ∈ g.Activities) ∧
    (∀ a ∈ activities, ∀ b ∈ activities,
      displayedDate a.OccursAt = displayedDate b.OccursAt → a.OccursAt ≠ b.OccursAt →
      ∀ g ∈ mapActivitiesIter activities order,
        ¬(toInner a ∈ g.Activities ∧ toInner b ∈ g.Activities)) := by
  have hperm := mapActivitiesIter_perm activities order h
  refine ⟨?_, ?_, ?_⟩
  · intro g hg x hx y hy
    have hgm := hperm.mem_iff.mp hg
    rw [occursAt_of_mem_group activities g hgm x hx,
      occursAt_of_mem_group activities g hgm y hy]
  · intro a ha b hb hab
    obtain ⟨g, hg, hgd, hga⟩ := exists_group_of_mem activities order h a ha
    refine ⟨g, hg, hga, ?_⟩
    rw [activities_of_mem_mapActivities activities g (hperm.mem_iff.mp hg)]
    refine List.mem_map_of_mem toInner (List.mem_filter.mpr ⟨hb, ?_⟩)
    simp [hgd, hab]
  · intro a _ b _ _ hne g hg hmem
    have hgm := hperm.mem_iff.mp hg
    have h1 := occursAt_of_mem_group activities g hgm (toInner a) hmem.1
    have h2 := occursAt_of_mem_group activities g hgm (toInner b) hmem.2
    exact hne ((h1.trans h2.symm : (toInner a).OccursAt = (toInner b).OccursAt))

/-- Witness for C2: two activities on the same displayed date whose stored
instants differ in the nanosecond component. -/
theorem claim_C2_witness :
    (([⟨0, 0, 0⟩, ⟨0, 1, 0⟩] : List GoTime).Perm
      (mapKeys (activityMap [⟨"a1", "T1", ⟨0, 0, 0⟩⟩, ⟨"a2", "T2", ⟨0, 1, 0⟩⟩]))) ∧
    ((∀ g ∈ mapActivitiesIter
        [⟨"a1", "T1", ⟨0, 0, 0⟩⟩, ⟨"a2", "T2", ⟨0, 1, 0⟩⟩] [⟨0, 0, 0⟩, ⟨0, 1, 0⟩],
      ∀ x ∈ g.Activities, ∀ y ∈ g.Activities, x.OccursAt = y.OccursAt) ∧
    (∀ a ∈ ([⟨"a1", "T1", ⟨0, 0, 0⟩⟩, ⟨"a2", "T2", ⟨0, 1, 0⟩⟩] : List Activity),
      ∀ b ∈ ([⟨"a1", "T1", ⟨0, 0, 0⟩⟩, ⟨"a2", "T2", ⟨0, 1, 0⟩⟩] : List Activity),
      a.OccursAt = b.OccursAt →
      ∃ g ∈ mapActivitiesIter
          [⟨"a1", "T1", ⟨0, 0, 0⟩⟩, ⟨"a2", "T2", ⟨0, 1, 0⟩⟩] [⟨0, 0, 0⟩, ⟨0, 1, 0⟩],
        toInner a ∈ g.Activities ∧ toInner b ∈ g.Activities) ∧
    (∀ a ∈ ([⟨"a1", "T1", ⟨0, 0, 0⟩⟩, ⟨"a2", "T2", ⟨0, 1, 0⟩⟩] : List Activity),
      ∀ b ∈ ([⟨"a1", "T1", ⟨0, 0, 0⟩⟩, ⟨"a2", "T2", ⟨0, 1, 0⟩⟩] : List Activity),
      displayedDate a.OccursAt = displayedDate b.OccursAt → a.OccursAt ≠ b.OccursAt →
      ∀ g ∈ mapActivitiesIter
          [⟨"a1", "T1", ⟨0, 0, 0⟩⟩, ⟨"a2", "T2", ⟨0, 1, 0⟩⟩] [⟨0, 0, 0⟩, ⟨0, 1, 0⟩],
        ¬(toInner a ∈ g.Activities ∧ toInner b ∈ g.Activities))) :=
  ⟨by decide, claim_C2_exact_timestamp_grouping _ _ (by decide)⟩

/-- C9 fails as stated: `mapActivities` iterates a Go map, whose key-visit
order is unspecified, and two valid visit orders of the same two-element input
produce outputs that differ in the order of the groups. -/
theorem claim_C9_counterexample :
    (([⟨0, 0, 0⟩, ⟨1, 0, 0⟩] : List GoTime).Perm
      (mapKeys (activityMap [⟨"a1", "T1", ⟨0, 0, 0⟩⟩, ⟨"a2", "T2", ⟨1, 0, 0⟩⟩]))) ∧
    (([⟨1, 0, 0⟩, ⟨0, 0, 0⟩] : List GoTime).Perm
      (mapKeys (activityMap [⟨"a1", "T1", ⟨0, 0, 0⟩⟩, ⟨"a2", "T2", ⟨1, 0, 0⟩⟩]))) ∧
    mapActivitiesIter [⟨"a1", "T1", ⟨0, 0, 0⟩⟩, ⟨"a2", "T2", ⟨1, 0, 0⟩⟩]
        [⟨0, 0, 0⟩, ⟨1, 0, 0⟩] ≠
      mapActivitiesIter [⟨"a1", "T1", ⟨0, 0, 0⟩⟩, ⟨"a2", "T2", ⟨1, 0, 0⟩⟩]
        [⟨1, 0, 0⟩, ⟨0, 0, 0⟩] :=
  ⟨by decide, by decide, by decide⟩

/-- C9 amended: `mapActivities` is a pure function of its input and the
key-visit order, with no error conditions; it is deterministic up to group
order: any two executions on the same input produce outputs that are
permutations of one another (the same groups, possibly in different order). -/
theorem claim_C9_amended_deterministic_up_to_group_order
    (activities : List Activity) (o₁ o₂ : List GoTime)
    (h₁ : o₁.Perm (mapKeys (activityMap activities)))
    (h₂ : o₂.Perm (mapKeys (activityMap activities))) :
    (mapActivitiesIter activities o₁).Perm (mapActivitiesIter activities o₂) :=
  (mapActivitiesIter_perm activities o₁ h₁).trans
    (mapActivitiesIter_perm activities o₂ h₂).symm

/-- Witness for the amended C9 at the counterexample input. -/
theorem claim_C9_amended_witness :
    (([⟨0, 0, 0⟩, ⟨1, 0, 0⟩] : List GoTime).Perm
      (mapKeys (activityMap [⟨"a1", "T1", ⟨0, 0, 0⟩⟩, ⟨"a2", "T2", ⟨1, 0, 0⟩⟩]))) ∧
    (([⟨1, 0, 0⟩, ⟨0, 0, 0⟩] : List GoTime).Perm
      (mapKeys (activityMap [⟨"a1", "T1", ⟨0, 0, 0⟩⟩, ⟨"a2", "T2", ⟨1, 0, 0⟩⟩]))) ∧
    (mapActivitiesIter [⟨"a1", "T1", ⟨0, 0, 0⟩⟩, ⟨"a2", "T2", ⟨1, 0, 0⟩⟩]
        [⟨0, 0, 0⟩, ⟨1, 0, 0⟩]).Perm
      (mapActivitiesIter [⟨"a1", "T1", ⟨0, 0, 0⟩⟩, ⟨"a2", "T2", ⟨1, 0, 0⟩⟩]
        [⟨1, 0, 0⟩, ⟨0, 0, 0⟩]) :=
  ⟨by decide, by decide,
    claim_C9_amended_deterministic_up_to_group_order _ _ _ (by decide) (by decide)⟩

/-- C10: in any execution of `mapActivities`, every activity placed in a group
has `OccursAt` equal to that group's `Date`, and the `Date` fields of the
output groups are pairwise distinct. -/
theorem claim_C10_group_consistency (activities : List Activity) (order : List GoTime)
    (h : order.Perm (mapKeys (activityMap activities))) :
    (∀ g ∈ mapActivitiesIter activities order, ∀ x ∈ g.Activities, x.OccursAt = g.Date) ∧
    ((mapActivitiesIter activities order).map
      GetTripActivitiesResponseOuterArray.Date).Nodup := by
  have hperm := mapActivitiesIter_perm activities order h
  constructor
  · intro g hg x hx
    exact occursAt_of_mem_group activities g (hperm.mem_iff.mp hg) x hx
  · have hmap : (mapActivities activities).map GetTripActivitiesResponseOuterArray.Date =
        mapKeys (activityMap activities) := by
      simp [mapActivities, mapKeys, List.map_map]
    have hnd : ((mapActivities activities).map
        GetTripActivitiesResponseOuterArray.Date).Nodup := by
      rw [hmap]
      exact nodup_mapKeys_activityMap activities
    exact (hperm.map GetTripActivitiesResponseOuterArray.Date).symm.nodup hnd

/-- Witness for C10 at a concrete three-activity input in reversed key order. -/
theorem claim_C10_witness :
    (([⟨1, 0, 0⟩, ⟨0, 0, 0⟩] : List GoTime).Perm
      (mapKeys (activityMap
        [⟨"a1", "T1", ⟨0, 0, 0⟩⟩, ⟨"a2", "T2", ⟨1, 0, 0⟩⟩, ⟨"a3", "T3", ⟨0, 0, 0⟩⟩]))) ∧
    ((∀ g ∈ mapActivitiesIter
        [⟨"a1", "T1", ⟨0, 0, 0⟩⟩, ⟨"a2", "T2", ⟨1, 0, 0⟩⟩, ⟨"a3", "T3", ⟨0, 0, 0⟩⟩]
        [⟨1, 0, 0⟩, ⟨0, 0, 0⟩],
      ∀ x ∈ g.Activities, x.OccursAt = g.Date) ∧
    ((mapActivitiesIter
        [⟨"a1", "T1", ⟨0, 0, 0⟩⟩, ⟨"a2", "T2", ⟨1, 0, 0⟩⟩, ⟨"a3", "T3", ⟨0, 0, 0⟩⟩]
        [⟨1, 0, 0⟩, ⟨0, 0, 0⟩]).map
      GetTripActivitiesResponseOuterArray.Date).Nodup) :=
  ⟨by decide, claim_C10_group_consistency _ _ (by decide)⟩

/-! ## Handler claims -/

/-- C3: on a participant whose confirmation flag is already `true`, the confirm
handler returns 400 "participant already confirmed" and performs no
`ConfirmParticipant` store operation, so the participant is unchanged; on an
unconfirmed participant a (successful) first call returns 204. -/
theorem claim_C3_confirm_at_most_once
    (GetParticipant : String → Except StoreErr Participant)
    (ConfirmParticipant : String → Option StoreErr)
    (id : String) (p : Participant)
    (hget : GetParticipant id = .ok p) :
    (p.IsConfirmed = true →
      PatchParticipantsParticipantIDConfirm (some id) GetParticipant ConfirmParticipant =
        ⟨.json400 "participant already confirmed", [.getParticipant id], []⟩ ∧
      ∀ i, StoreOp.confirmParticipant i ∉
        (PatchParticipantsParticipantIDConfirm (some id) GetParticipant
          ConfirmParticipant).storeOps) ∧
    (p.IsConfirmed = false → ConfirmParticipant id = none →
      (PatchParticipantsParticipantIDConfirm (some id) GetParticipant
        ConfirmParticipant).response = .json204) := by
  constructor
  · intro hconf
    simp [PatchParticipantsParticipantIDConfirm, hget, hconf]
  · intro hconf hok
    simp [PatchParticipantsParticipantIDConfirm, hget, hconf, hok]

/-- Witness for C3 at a concrete confirmed participant. -/
theorem claim_C3_witness :
    ((fun _ : String => (Except.ok ⟨"p1", true⟩ : Except StoreErr Participant))
        "5e03f6e5-82a1-4207-9a3d-6c2bcd9c6b0a" = Except.ok ⟨"p1", true⟩) ∧
    (((⟨"p1", true⟩ : Participant).IsConfirmed = true →
      PatchParticipantsParticipantIDConfirm (some "5e03f6e5-82a1-4207-9a3d-6c2bcd9c6b0a")
          (fun _ => Except.ok ⟨"p1", true⟩) (fun _ => none) =
        ⟨.json400 "participant already confirmed",
          [.getParticipant "5e03f6e5-82a1-4207-9a3d-6c2bcd9c6b0a"], []⟩ ∧
      ∀ i, StoreOp.confirmParticipant i ∉
        (PatchParticipantsParticipantIDConfirm (some "5e03f6e5-82a1-4207-9a3d-6c2bcd9c6b0a")
          (fun _ => Except.ok ⟨"p1", true⟩) (fun _ => none)).storeOps) ∧
    ((⟨"p1", true⟩ : Participant).IsConfirmed = false →
      (fun _ : String => (none : Option StoreErr)) "5e03f6e5-82a1-4207-9a3d-6c2bcd9c6b0a" = none →
      (PatchParticipantsParticipantIDConfirm (some "5e03f6e5-82a1-4207-9a3d-6c2bcd9c6b0a")
        (fun _ => Except.ok ⟨"p1", true⟩) (fun _ => none)).response = .json204)) :=
  ⟨rfl, claim_C3_confirm_at_most_once _ _ _ ⟨"p1", true⟩ rfl⟩

/-- C4: when `uuid.Parse` fails (the identifier string is not a valid UUID),
each implemented identifier-taking handler returns 400 "uuid invalid" with an
empty list of store operations. -/
theorem claim_C4_invalid_uuid_no_store_access
    (GetParticipant : String → Except StoreErr Participant)
    (ConfirmParticipant : String → Option StoreErr)
    (GetTrip : String → Except StoreErr Trip)
    (GetTripActivities : String → Except StoreErr (List Activity)) :
    PatchParticipantsParticipantIDConfirm none GetParticipant ConfirmParticipant =
      ⟨.json400 "uuid invalid", [], []⟩ ∧
    GetTripsTripID none GetTrip = ⟨.json400 "uuid invalid", [], []⟩ ∧
    GetTripsTripIDActivities none GetTripActivities = ⟨.json400 "uuid invalid", [], []⟩ :=
  ⟨rfl, rfl, rfl⟩

/-- C5: a syntactically valid trip identifier for which the store reports
`pgx.ErrNoRows` yields a 400 response (the `json400` constructor, not a 404)
with message "Trip not found", which differs from the malformed-identifier
message "uuid invalid". -/
theorem claim_C5_trip_not_found_distinct
    (GetTrip : String → Except StoreErr Trip) (id : String)
    (h : GetTrip id = .error .noRows) :
    GetTripsTripID (some id) GetTrip =
      ⟨.json400 "Trip not found", [.getTrip id], []⟩ ∧
    "Trip not found" ≠ "uuid invalid" := by
  refine ⟨?_, by decide⟩
  simp [GetTripsTripID, h]

/-- Witness for C5 at a concrete identifier and a no-rows store. -/
theorem claim_C5_witness :
    ((fun _ : String => (Except.error StoreErr.noRows : Except StoreErr Trip))
        "0f9b5a1c-2f1e-4a57-9c4d-3b2a1d0e9f88" = Except.error StoreErr.noRows) ∧
    (GetTripsTripID (some "0f9b5a1c-2f1e-4a57-9c4d-3b2a1d0e9f88")
        (fun _ => Except.error StoreErr.noRows) =
      ⟨.json400 "Trip not found", [.getTrip "0f9b5a1c-2f1e-4a57-9c4d-3b2a1d0e9f88"], []⟩ ∧
    "Trip not found" ≠ "uuid invalid") :=
  ⟨rfl, claim_C5_trip_not_found_distinct _ _ rfl⟩

/-- C6: once `CreateTrip` has succeeded with some trip id, `PostTrips` returns
201 carrying that id whatever the mailer does, and two runs differing only in
the mailer's behaviour produce the same response and the same store
operations (the mailer outcome reaches only the log). -/
theorem claim_C6_mailer_noninterference {β : Type}
    (body : Option β) (validateStruct : β → Option String)
    (CreateTrip : β → Except StoreErr String)
    (b : β) (tripID : String)
    (hbody : body = some b) (hval : validateStruct b = none)
    (hcreate : CreateTrip b = .ok tripID) :
    (∀ mailer : String → Option String,
      (PostTrips body validateStruct CreateTrip mailer).response = .json201 tripID) ∧
    (∀ mailer1 mailer2 : String → Option String,
      (PostTrips body validateStruct CreateTrip mailer1).response =
        (PostTrips body validateStruct CreateTrip mailer2).response ∧
      (PostTrips body validateStruct CreateTrip mailer1).storeOps =
        (PostTrips body validateStruct CreateTrip mailer2).storeOps) := by
  subst hbody
  constructor
  · intro mailer
    simp [PostTrips, hval, hcreate]
  · intro mailer1 mailer2
    simp [PostTrips, hval, hcreate]

/-- Witness for C6: a concrete successful creation, compared across a failing
and a succeeding mailer. -/
theorem claim_C6_witness :
    ((some () : Option Unit) = some ()) ∧
    ((fun _ : Unit => (none : Option String)) () = none) ∧
    ((fun _ : Unit => (Except.ok "7c9e6679-7425-40de-944b-e07fc1f90ae7" :
        Except StoreErr String)) () = Except.ok "7c9e6679-7425-40de-944b-e07fc1f90ae7") ∧
    ((∀ mailer : String → Option String,
      (PostTrips (some ()) (fun _ => none)
          (fun _ => Except.ok "7c9e6679-7425-40de-944b-e07fc1f90ae7") mailer).response =
        .json201 "7c9e6679-7425-40de-944b-e07fc1f90ae7") ∧
    (∀ mailer1 mailer2 : String → Option String,
      (PostTrips (some ()) (fun _ => none)
          (fun _ => Except.ok "7c9e6679-7425-40de-944b-e07fc1f90ae7") mailer1).response =
        (PostTrips (some ()) (fun _ => none)
          (fun _ => Except.ok "7c9e6679-7425-40de-944b-e07fc1f90ae7") mailer2).response ∧
      (PostTrips (some ()) (fun _ => none)
          (fun _ => Except.ok "7c9e6679-7425-40de-944b-e07fc1f90ae7") mailer1).storeOps =
        (PostTrips (some ()) (fun _ => none)
          (fun _ => Except.ok "7c9e6679-7425-40de-944b-e07fc1f90ae7") mailer2).storeOps)) :=
  ⟨rfl, rfl, rfl, claim_C6_mailer_noninterference _ _ _ () _ rfl rfl rfl⟩

/-- C7 fails as stated: with a valid identifier and an unconfirmed existing
participant, `PatchParticipantsParticipantIDConfirm` performs two store
operations (`GetParticipant` then `ConfirmParticipant`), not exactly one. -/
theorem claim_C7_counterexample :
    (PatchParticipantsParticipantIDConfirm
        (some "b7a9c8d0-1234-4cde-8f90-abcdef012345")
        (fun _ => Except.ok ⟨"p1", false⟩) (fun _ => none)).storeOps =
      [.getParticipant "b7a9c8d0-1234-4cde-8f90-abcdef012345",
        .confirmParticipant "b7a9c8d0-1234-4cde-8f90-abcdef012345"] ∧
    (PatchParticipantsParticipantIDConfirm
        (some "b7a9c8d0-1234-4cde-8f90-abcdef012345")
        (fun _ => Except.ok ⟨"p1", false⟩) (fun _ => none)).storeOps.length ≠ 1 := by
  constructor
  · rfl
  · simp [PatchParticipantsParticipantIDConfirm]

/-- C7 amended: after successful input validation, `PostTrips`,
`GetTripsTripID` and `GetTripsTripIDActivities` perform exactly one store
operation, while `PatchParticipantsParticipantIDConfirm` performs either one
(`GetParticipant` alone) or two (`GetParticipant` then `ConfirmParticipant`). -/
theorem claim_C7_amended_store_op_counts {β : Type}
    (GetParticipant : String → Except StoreErr Participant)
    (ConfirmParticipant : String → Option StoreErr)
    (GetTrip : String → Except StoreErr Trip)
    (GetTripActivities : String → Except StoreErr (List Activity))
    (body : Option β) (validateStruct : β → Option String)
    (CreateTrip : β → Except StoreErr String)
    (mailer : String → Option String)
    (id : String) (b : β)
    (hbody : body = some b) (hval : validateStruct b = none) :
    (PostTrips body validateStruct CreateTrip mailer).storeOps = [.createTrip] ∧
    (GetTripsTripID (some id) GetTrip).storeOps = [.getTrip id] ∧
    (GetTripsTripIDActivities (some id) GetTripActivities).storeOps =
      [.getTripActivities id] ∧
    ((PatchParticipantsParticipantIDConfirm (some id) GetParticipant
        ConfirmParticipant).storeOps = [.getParticipant id] ∨
      (PatchParticipantsParticipantIDConfirm (some id) GetParticipant
        ConfirmParticipant).storeOps = [.getParticipant id, .confirmParticipant id]) := by
  subst hbody
  refine ⟨?_, ?_, ?_, ?_⟩
  · cases hc : CreateTrip b with
    | error e => simp [PostTrips, hval, hc]
    | ok t => simp [PostTrips, hval, hc]
  · cases hg : GetTrip id with
    | error e => cases e <;> simp [GetTripsTripID, hg]
    | ok t => simp [GetTripsTripID, hg]
  · cases hg : GetTripActivities id with
    | error e => cases e <;> simp [GetTripsTripIDActivities, hg]
    | ok acts => simp [GetTripsTripIDActivities, hg]
  · cases hg : GetParticipant id with
    | error e =>
      cases e <;> simp [PatchParticipantsParticipantIDConfirm, hg]
    | ok p =>
      cases hp : p.IsConfirmed with
      | true => simp [PatchParticipantsParticipantIDConfirm, hg, hp]
      | false =>
        cases hcf : ConfirmParticipant id with
        | none => simp [PatchParticipantsParticipantIDConfirm, hg, hp, hcf]
        | some e => simp [PatchParticipantsParticipantIDConfirm, hg, hp, hcf]

/-- Witness for the amended C7 at concrete stores. -/
theorem claim_C7_amended_witness :
    ((some () : Option Unit) = some ()) ∧
    ((fun _ : Unit => (none : Option String)) () = none) ∧
    ((PostTrips (some ()) (fun _ => none)
        (fun _ => Except.ok "7c9e6679-7425-40de-944b-e07fc1f90ae7")
        (fun _ => none)).storeOps = [.createTrip] ∧
    (GetTripsTripID (some "t1") (fun _ => Except.error StoreErr.noRows)).storeOps =
      [.getTrip "t1"] ∧
    (GetTripsTripIDActivities (some "t1")
        (fun _ => Except.ok [])).storeOps = [.getTripActivities "t1"] ∧
    ((PatchParticipantsParticipantIDConfirm (some "t1")
        (fun _ => Except.ok ⟨"p1", false⟩) (fun _ => none)).storeOps =
        [.getParticipant "t1"] ∨
      (PatchParticipantsParticipantIDConfirm (some "t1")
        (fun _ => Except.ok ⟨"p1", false⟩) (fun _ => none)).storeOps =
        [.getParticipant "t1", .confirmParticipant "t1"])) :=
  ⟨rfl, rfl, claim_C7_amended_store_op_counts _ _ _ _ _ _ _ _ "t1" () rfl rfl⟩

/-- C8: every unimplemented route handler panics with "not implemented" on any
input and never returns a structured response. -/
theorem claim_C8_unimplemented_routes_panic (tripID : String) :
    PutTripsTripID tripID = .panics "not implemented" ∧
    PostTripsTripIDActivities tripID = .panics "not implemented" ∧
    GetTripsTripIDConfirm tripID = .panics "not implemented" ∧
    PostTripsTripIDInvites tripID = .panics "not implemented" ∧
    GetTripsTripIDLinks tripID = .panics "not implemented" ∧
    PostTripsTripIDLinks tripID = .panics "not implemented" ∧
    GetTripsTripIDParticipants tripID = .panics "not implemented" ∧
    ∀ out : HandlerOutput,
      PutTripsTripID tripID ≠ .returns out ∧
      PostTripsTripIDActivities tripID ≠ .returns out ∧
      GetTripsTripIDConfirm tripID ≠ .returns out ∧
      PostTripsTripIDInvites tripID ≠ .returns out ∧
      GetTripsTripIDLinks tripID ≠ .returns out ∧
      PostTripsTripIDLinks tripID ≠ .returns out ∧
      GetTripsTripIDParticipants tripID ≠ .returns out := by
  refine ⟨rfl, rfl, rfl, rfl, rfl, rfl, rfl, ?_⟩
  intro out
  refine ⟨?_, ?_, ?_, ?_, ?_, ?_, ?_⟩ <;>
    simp [PutTripsTripID, PostTripsTripIDActivities, GetTripsTripIDConfirm,
      PostTripsTripIDInvites, GetTripsTripIDLinks, PostTripsTripIDLinks,
      GetTripsTripIDParticipants]

end Journey
